import Mathlib

/-!
Verification development for the kde-browser-picker core:
browser/profile discovery, configuration merge, and the secure launch path.

Strings are modelled as `List Char` (`Str`); Qt's `QString` operations used by
the source (`isEmpty`, `trimmed`, `remove`, `contains`, lexicographic `<`)
are embedded as executable functions on `Str`.  `QDateTime` values are
modelled as `Int` seconds since the epoch.  Filesystem and process state the
source reads through Qt (`QFile::exists`, `QFileInfo`, `QStandardPaths`,
JSON/INI file contents) is threaded explicitly through environment records,
so every detector function is a pure function of (environment, arguments).
-/

namespace BrowserPicker

/-- Strings, modelled as lists of characters (`QString`). -/
abbrev Str := List Char

/-- Substring test: `containsSeq pat s` models `QString::contains(pat)`. -/
def containsSeq (pat s : Str) : Bool :=
  match s with
  | [] => decide (pat = [])
  | _ :: rest => decide (pat.isPrefixOf s = true) || containsSeq pat rest

/-- Whitespace characters removed by `QString::trimmed` (model of
`QChar::isSpace` restricted to ASCII). -/
def isSpaceChar (c : Char) : Bool :=
  decide (c = ' ' ∨ c = '\t' ∨ c = '\n' ∨ c = '\x0b' ∨ c = '\x0c' ∨ c = '\r')

/-- `QString::trimmed`: strip leading and trailing whitespace. -/
def trimStr (s : Str) : Str :=
  ((s.dropWhile isSpaceChar).reverse.dropWhile isSpaceChar).reverse

/-- Lexicographic comparison on code points, modelling `QString::operator<`. -/
def ltStr : Str → Str → Bool
  | _, [] => false
  | [], _ :: _ => true
  | a :: as, b :: bs =>
    if a < b then true
    else if b < a then false
    else ltStr as bs

theorem ltStr_irrefl (s : Str) : ltStr s s = false := by
  induction s with
  | nil => rfl
  | cons a as ih => simp [ltStr, ih]

theorem ltStr_trans : ∀ a b c : Str, ltStr a b = true → ltStr b c = true →
    ltStr a c = true := by
  intro a
  induction a with
  | nil =>
    intro b c hab hbc
    cases c with
    | nil =>
      cases b with
      | nil => exact hab
      | cons y ys => simp [ltStr] at hbc
    | cons z zs => simp [ltStr]
  | cons x xs ih =>
    intro b c hab hbc
    cases b with
    | nil => simp [ltStr] at hab
    | cons y ys =>
      cases c with
      | nil => simp [ltStr] at hbc
      | cons z zs =>
        simp only [ltStr] at hab hbc ⊢
        by_cases hxy : x < y
        · by_cases hyz : y < z
          · rw [if_pos (lt_trans hxy hyz)]
          · rw [if_neg hyz] at hbc
            by_cases hzy : z < y
            · rw [if_pos hzy] at hbc
              exact absurd hbc (by simp)
            · have hyz' : y = z := le_antisymm (not_lt.mp hzy) (not_lt.mp hyz)
              subst hyz'
              rw [if_pos hxy]
        · rw [if_neg hxy] at hab
          by_cases hyx : y < x
          · rw [if_pos hyx] at hab
            exact absurd hab (by simp)
          · have hxy' : x = y := le_antisymm (not_lt.mp hyx) (not_lt.mp hxy)
            subst hxy'
            rw [if_neg (lt_irrefl x)] at hab
            by_cases hyz : x < z
            · rw [if_pos hyz]
            · rw [if_neg hyz] at hbc ⊢
              by_cases hzy : z < x
              · rw [if_pos hzy] at hbc
                exact absurd hbc (by simp)
              · rw [if_neg hzy] at hbc ⊢
                exact ih ys zs hab hbc

theorem ltStr_antisymm_eq : ∀ a b : Str, ltStr a b = false → ltStr b a = false →
    a = b := by
  intro a
  induction a with
  | nil =>
    intro b hab _
    cases b with
    | nil => rfl
    | cons y ys => simp [ltStr] at hab
  | cons x xs ih =>
    intro b hab hba
    cases b with
    | nil => simp [ltStr] at hba
    | cons y ys =>
      simp only [ltStr] at hab hba
      by_cases hxy : x < y
      · rw [if_pos hxy] at hab
        exact absurd hab (by simp)
      · by_cases hyx : y < x
        · rw [if_pos hyx] at hba
          exact absurd hba (by simp)
        · have hxy' : x = y := le_antisymm (not_lt.mp hyx) (not_lt.mp hxy)
          subst hxy'
          rw [if_neg (lt_irrefl x), if_neg (lt_irrefl x)] at hab hba
          rw [ih ys hab hba]

/-- The injection-dangerous characters rejected by both URL validation and the
profile-name character class: `; | ` $ ( ) { } [ ] < >` (regular expression
in `BrowserDetector::isValidUrl`). -/
def dangerousChars : Str := [';', '|', '`', '$', '(', ')', '{', '}', '[', ']', '<', '>']

/-- Does the string contain one of the dangerous characters? -/
def hasDangerousChar (s : Str) : Bool :=
  s.any (fun c => dangerousChars.contains c)

/-- ASCII letter. -/
def isAlphaChar (c : Char) : Bool :=
  decide (('a' ≤ c ∧ c ≤ 'z') ∨ ('A' ≤ c ∧ c ≤ 'Z'))

/-- Characters allowed inside a URL scheme after the first letter
(RFC 3986, as implemented by `QUrl`). -/
def isSchemeChar (c : Char) : Bool :=
  isAlphaChar c || decide (('0' ≤ c ∧ c ≤ '9') ∨ c = '+' ∨ c = '-' ∨ c = '.')

/-- Model of `QUrl::scheme()` (lower-cased by Qt): a scheme is present when the
string starts with an ASCII letter followed by scheme characters and a `:`.
Returns `none` when the URL has no scheme. -/
def schemeOf (s : Str) : Option Str :=
  match s with
  | [] => none
  | c :: _ =>
    if isAlphaChar c then
      match s.dropWhile isSchemeChar with
      | ':' :: _ => some ((s.takeWhile isSchemeChar).map Char.toLower)
      | _ => none
    else none

/-- ASCII digit. -/
def isDigitChar (c : Char) : Bool :=
  decide ('0' ≤ c ∧ c ≤ '9')

/-- The authority component that follows a `//`, running up to the first
`/`, `?` or `#` (RFC 3986, as parsed by `QUrl`); `none` when the remainder
does not start with `//` (no authority present). -/
def authorityAfter : Str → Option Str
  | '/' :: '/' :: t =>
    some (t.takeWhile (fun c => decide (c ≠ '/' ∧ c ≠ '?' ∧ c ≠ '#')))
  | _ => none

/-- The authority component of a URL string: after `scheme:` when a scheme
is present, at the very start for a scheme-less network-path reference. -/
def authorityOf (s : Str) : Option Str :=
  match schemeOf s with
  | some _ =>
    match s.dropWhile isSchemeChar with
    | ':' :: r => authorityAfter r
    | _ => none
  | none => authorityAfter s

/-- The suffix of `s` after the last occurrence of `c` (all of `s` when `c`
does not occur) — used to strip the userinfo at the last `@`. -/
def afterLastChar (c : Char) (s : Str) : Str :=
  (s.reverse.takeWhile (fun x => decide (x ≠ c))).reverse

/-- Split `host[:port]` at the last colon; no split when no colon occurs. -/
def splitHostPort (s : Str) : Str × Option Str :=
  if s.any (fun x => decide (x = ':')) then
    (((s.reverse.dropWhile (fun x => decide (x ≠ ':'))).drop 1).reverse,
     some ((s.reverse.takeWhile (fun x => decide (x ≠ ':'))).reverse))
  else (s, none)

/-- Numeric value of a digit string. -/
def portVal (p : Str) : Nat :=
  p.foldl (fun n c => n * 10 + (c.toNat - 48)) 0

/-- A port is valid when absent, or empty, or all digits with value at most
65535 (`QUrl` reports `InvalidPortError` otherwise). -/
def portOk : Option Str → Bool
  | none => true
  | some p => p.all isDigitChar && decide (portVal p ≤ 65535)

/-- Characters the model accepts in a registered-name host: ASCII letters
and digits, `-`, `.`, `_`, `~`, `%`, and anything beyond ASCII (Qt resolves
non-ASCII hosts through IDNA). -/
def isHostChar (c : Char) : Bool :=
  isAlphaChar c || isDigitChar c ||
    decide (c = '-' ∨ c = '.' ∨ c = '_' ∨ c = '~' ∨ c = '%') ||
    decide (c.toNat > 127)

/-- Model of `QUrl(url).isValid()` in Qt's default tolerant parsing mode.
A non-empty string without an authority parses successfully (tolerant mode
percent-encodes problematic path/query/fragment characters).  When an
authority is present, the model performs Qt's structural checks there:
after stripping the userinfo, the port must be numeric and at most 65535
(e.g. `http://example.com:abc` is invalid), the host characters must come
from `isHostChar`, and bracketed IPv6 literals are treated as invalid
(every such string carries `[`/`]` from `dangerousChars` and is rejected by
the character check on every code path anyway). -/
def qurlIsValid (s : Str) : Bool :=
  if s.isEmpty then false
  else
    match authorityOf s with
    | none => true
    | some auth =>
      let hostport := afterLastChar '@' auth
      if hostport.any (fun c => decide (c = '[' ∨ c = ']')) then false
      else
        let hp := splitHostPort hostport
        hp.1.all isHostChar && portOk hp.2

/-- The scheme allow-list of `BrowserDetector::isValidUrl`. -/
def allowedSchemes : List Str :=
  ["http".toList, "https".toList, "file".toList, "about".toList,
   "chrome".toList, "edge".toList]

/-- `BrowserDetector::isValidUrl`, parametrized by the verdict `v` of
`QUrl::isValid` (the rest of the function — scheme allow-list, dangerous
characters, the `://` fall-through — is fully concrete): reject empty; if
the URL parses and its scheme is empty or allow-listed, accept unless it
contains a dangerous character; otherwise accept a string not containing
`://` unless it contains a dangerous character; reject everything else. -/
def isValidUrlWith (v : Str → Bool) (url : Str) : Bool :=
  if url.isEmpty then false
  else if v url &&
      ((schemeOf url).getD []).isEmpty ||
        v url && allowedSchemes.contains ((schemeOf url).getD []) then
    !hasDangerousChar url
  else if !containsSeq "://".toList url then
    !hasDangerousChar url
  else false

/-- `BrowserDetector::isValidUrl`: the function above at the concrete
`QUrl::isValid` model. -/
def isValidUrl (url : Str) : Bool :=
  isValidUrlWith qurlIsValid url

/-- Character class of `BrowserDetector::isValidProfileName`:
letters, digits, space, dot, underscore, hyphen. -/
def isProfileChar (c : Char) : Bool :=
  decide (('a' ≤ c ∧ c ≤ 'z') ∨ ('A' ≤ c ∧ c ≤ 'Z') ∨ ('0' ≤ c ∧ c ≤ '9') ∨
    c = ' ' ∨ c = '.' ∨ c = '_' ∨ c = '-')

/-- `BrowserDetector::isValidProfileName`: non-empty and composed only of
profile characters. -/
def isValidProfileName (p : Str) : Bool :=
  !p.isEmpty && p.all isProfileChar

/-- `BrowserDetector::sanitizeUrl`: drop NUL bytes, then trim whitespace. -/
def sanitizeUrl (url : Str) : Str :=
  trimStr (url.filter (fun c => decide (c ≠ '\x00')))

/-- `BrowserDetector::sanitizeProfileName`: drop NUL bytes, trim whitespace,
then remove every character outside the profile character class. -/
def sanitizeProfileName (p : Str) : Str :=
  (trimStr (p.filter (fun c => decide (c ≠ '\x00')))).filter isProfileChar

/-- Minimal JSON value model for the parsed contents read through
`QJsonDocument` / `QJsonObject` / `QJsonValue`. `other` covers values the
source never inspects further (arrays, booleans, null, undefined). -/
inductive Json where
  | obj : List (Str × Json) → Json
  | str : Str → Json
  | num : Int → Json
  | other : Json
deriving Repr, Inhabited

/-- `QJsonObject::operator[]` / `QJsonValue::operator[]`: field lookup,
yielding `other` (Qt: Undefined) for a missing key or a non-object. -/
def Json.get (j : Json) (k : Str) : Json :=
  match j with
  | .obj fields =>
    match fields.find? (fun f => decide (f.1 = k)) with
    | some f => f.2
    | none => .other
  | _ => .other

/-- `QJsonValue::toObject`: the field list of an object, `[]` otherwise. -/
def Json.toObject (j : Json) : List (Str × Json) :=
  match j with
  | .obj fields => fields
  | _ => []

/-- `QJsonValue::toString`: the string payload, `""` otherwise. -/
def Json.toStr (j : Json) : Str :=
  match j with
  | .str s => s
  | _ => []

/-- `QJsonValue::toDouble` restricted to the integral values the source
consumes (epoch milliseconds): the numeric payload, `0` otherwise. -/
def Json.toNum (j : Json) : Int :=
  match j with
  | .num n => n
  | _ => 0

/-- `BrowserDetector::ProfileInfo`: internal name, on-disk path, display
name, last-used time, browser-reported default flag. -/
structure ProfileInfo where
  name : Str
  path : Str
  displayName : Str
  lastUsed : Int
  isDefault : Bool
deriving Repr, DecidableEq, Inhabited

/-- `Constants::BrowserType`. -/
inductive BrowserType where
  | firefox
  | chrome
  | chromium
  | unknown
deriving Repr, DecidableEq, Inhabited

/-- `BrowserDetector::BrowserInfo`: display name, executable path, icon,
profiles keyed by profile id, and family type. -/
structure BrowserInfo where
  name : Str
  executable : Str
  iconPath : Str
  profiles : List (Str × ProfileInfo)
  type : BrowserType
deriving Repr, DecidableEq, Inhabited

/-- Key membership in an association list (`QMap::contains`). -/
def hasKey {α : Type} (m : List (Str × α)) (k : Str) : Bool :=
  m.any (fun p => decide (p.1 = k))

/-- Value lookup in an association list (`QMap::operator[]` on a present
key / `QMap::value`). -/
def lookupKV {α : Type} (m : List (Str × α)) (k : Str) : Option α :=
  match m.find? (fun p => decide (p.1 = k)) with
  | some p => some p.2
  | none => none

/-- `QMap::insert` semantics: replace the value at an existing key,
otherwise append the new pair. -/
def insertKV {α : Type} (k : Str) (v : α) (m : List (Str × α)) : List (Str × α) :=
  if m.any (fun p => decide (p.1 = k)) then
    m.map (fun p => if p.1 = k then (k, v) else p)
  else
    m ++ [(k, v)]

/-- Environment record: everything `BrowserDetector` reads from outside the
process — filesystem predicates, file contents (already decoded), the PATH
lookup, and the configuration overrides held in the detector's members
(`m_execOverrides`, `m_enabledOverrides`).

`jsonAt p` is the result of opening file `p` and parsing it with
`QJsonDocument::fromJson`: `none` when the file cannot be opened or is not
well-formed JSON, otherwise the parsed value.  `iniGroups p` is the
`QSettings`/IniFormat view of file `p`: child groups with their key/value
entries.  `mtime p` is `QFileInfo(p).lastModified()` in epoch seconds. -/
structure Env where
  home : Str
  pathLookup : Str → Str
  fileExists : Str → Bool
  isExec : Str → Bool
  dirExists : Str → Bool
  mtime : Str → Int
  jsonAt : Str → Option Json
  iniGroups : Str → List (Str × List (Str × Str))
  enabledOverride : Str → Option Bool
  execOverride : Str → Str

/-- `BrowserDetector::getProfileLastUsed`.  For Firefox, read
`times.json`'s `firstUse` (epoch ms, divided by 1000 with C truncation) when
positive; for `chrome`/`chromium` use the `Preferences` file's modification
time when it exists; in all remaining cases fall back to the profile
directory's modification time.  Note the chrome/chromium branch matches the
literal strings `"chrome"` and `"chromium"` only. -/
def getProfileLastUsed (env : Env) (browserPath profilePath : Str) : Int :=
  if browserPath = "firefox".toList then
    let timesPath := profilePath ++ "/times.json".toList
    if env.fileExists timesPath then
      match env.jsonAt timesPath with
      | some (.obj times) =>
        let firstUse := Int.tdiv ((Json.obj times).get "firstUse".toList).toNum 1000
        if firstUse > 0 then firstUse else env.mtime profilePath
      | _ => env.mtime profilePath
    else env.mtime profilePath
  else if browserPath = "chrome".toList ∨ browserPath = "chromium".toList then
    let prefsPath := profilePath ++ "/Preferences".toList
    if env.fileExists prefsPath then env.mtime prefsPath else env.mtime profilePath
  else env.mtime profilePath

/-- The loop body of `BrowserDetector::parseChromiumLocalState`: one
`info_cache` entry — human name from its `name` field (falling back to the
directory name), inserted under its directory name when the corresponding
profile subdirectory exists under `configDir`. -/
def chromeStep (env : Env) (configDir : Str) (acc : List (Str × ProfileInfo))
    (entry : Str × Json) : List (Str × ProfileInfo) :=
  let profileDir := entry.1
  let name0 := (entry.2.get "name".toList).toStr
  let name := if name0 = [] then profileDir else name0
  if env.dirExists (configDir ++ "/".toList ++ profileDir) then
    insertKV profileDir
      { name := name, path := profileDir, displayName := name,
        lastUsed := 0, isDefault := false } acc
  else acc

/-- `BrowserDetector::parseChromiumLocalState`: on a parsed JSON object,
synthesize the `Default` profile, then add one profile per
`profile.info_cache` entry whose subdirectory exists under `configDir`;
on an unreadable file or non-object document, leave the map empty. -/
def parseChromiumLocalState (env : Env) (doc : Option Json) (configDir : Str) :
    List (Str × ProfileInfo) :=
  match doc with
  | some (.obj root) =>
    let infoCache := (((Json.obj root).get "profile".toList).get "info_cache".toList).toObject
    let start : List (Str × ProfileInfo) :=
      [("Default".toList,
        { name := "Default".toList, path := "Default".toList,
          displayName := "Default".toList, lastUsed := 0, isDefault := false })]
    infoCache.foldl (chromeStep env configDir) start
  | _ => []

/-- `BrowserDetector::getChromeProfilePath`. -/
def getChromeProfilePath (env : Env) (browserName : Str) : Str :=
  env.home ++ "/.config/".toList ++ browserName

/-- The per-profile last-used stamping loop of
`BrowserDetector::getChromeProfiles`. -/
def stampChrome (env : Env) (browserName configPath : Str) (p : Str × ProfileInfo) :
    Str × ProfileInfo :=
  (p.1,
    { p.2 with lastUsed :=
        getProfileLastUsed env browserName (configPath ++ "/".toList ++ p.2.path) })

/-- The path of the Chromium-family `Local State` file under the browser's
config root. -/
def localStatePath (env : Env) (browserName : Str) : Str :=
  getChromeProfilePath env browserName ++ "/".toList ++ "Local State".toList

/-- `BrowserDetector::getChromeProfiles`: empty when the `Local State` file
is absent; otherwise parse it and stamp each profile with its last-used
time (note: `browserName` here is `"google-chrome"` or `"chromium"`). -/
def getChromeProfiles (env : Env) (browserName : Str) : List (Str × ProfileInfo) :=
  let configPath := getChromeProfilePath env browserName
  if !env.fileExists (localStatePath env browserName) then []
  else
    (parseChromiumLocalState env (env.jsonAt (localStatePath env browserName)) configPath).map
      (stampChrome env browserName configPath)

/-- `QVariant::toBool` on the string values a `QSettings` ini file yields:
false exactly for the empty string and the lower-cased contents `"0"` and
`"false"` (and for a missing key, handled at the call site). -/
def variantToBool (s : Str) : Bool :=
  let l := s.map Char.toLower
  !(decide (l = []) || decide (l = "0".toList) || decide (l = "false".toList))

/-- `BrowserDetector::parseFirefoxIni`: every ini group whose name starts
with `Profile` and has non-empty `Name` and `Path` values contributes a
profile keyed by its `Name`; the `Default` key marks the browser-reported
default profile. -/
def parseFirefoxIni (groups : List (Str × List (Str × Str))) :
    List (Str × ProfileInfo) :=
  groups.foldl
    (fun acc g =>
      if ("Profile".toList).isPrefixOf g.1 then
        let name := ((lookupKV g.2 "Name".toList).getD [])
        let path := ((lookupKV g.2 "Path".toList).getD [])
        let isDefault :=
          match lookupKV g.2 "Default".toList with
          | some v => variantToBool v
          | none => false
        if name ≠ [] ∧ path ≠ [] then
          insertKV name
            { name := name, path := path, displayName := name,
              lastUsed := 0, isDefault := isDefault } acc
        else acc
      else acc)
    []

/-- `BrowserDetector::getFirefoxProfilePath`. -/
def getFirefoxProfilePath (env : Env) : Str :=
  env.home ++ "/.mozilla/firefox".toList

/-- `BrowserDetector::getFirefoxProfiles`: empty when `profiles.ini` is
absent; otherwise parse it and stamp each profile with its last-used time. -/
def getFirefoxProfiles (env : Env) : List (Str × ProfileInfo) :=
  let profilesPath := getFirefoxProfilePath env
  let iniPath := profilesPath ++ "/".toList ++ "profiles.ini".toList
  if !env.fileExists iniPath then []
  else
    (parseFirefoxIni (env.iniGroups iniPath)).map
      (fun p =>
        let t := getProfileLastUsed env "firefox".toList (profilesPath ++ "/".toList ++ p.2.path)
        (p.1, { p.2 with lastUsed := t }))

/-- `BrowserDetector::findExecutable`: PATH lookup first
(`QStandardPaths::findExecutable`), then the fixed list of common install
directories; empty string when nothing is found. -/
def findExecutable (env : Env) (name : Str) : Str :=
  let p := env.pathLookup name
  if p ≠ [] then p
  else
    let commons : List Str :=
      ["/usr/bin/".toList ++ name,
       "/usr/local/bin/".toList ++ name,
       "/opt/".toList ++ name ++ "/".toList ++ name,
       env.home ++ "/.local/bin/".toList ++ name]
    match commons.find? (fun q => env.fileExists q && env.isExec q) with
    | some q => q
    | none => []

/-- `BrowserDetector::findExecutableFromList`: first name in the list that
resolves to an executable. -/
def findExecutableFromList (env : Env) : List Str → Str
  | [] => []
  | n :: rest =>
    let e := findExecutable env n
    if e ≠ [] then e else findExecutableFromList env rest

/-- `Constants::CHROME_EXECUTABLE_VARIANTS`. -/
def chromeExecVariants : List Str :=
  ["google-chrome".toList, "google-chrome-stable".toList,
   "google-chrome-beta".toList, "google-chrome-unstable".toList]

/-- One browser's contribution to `BrowserDetector::detectBrowsers`: skip
when explicitly disabled by an override; use a non-empty executable-path
override verbatim, otherwise resolve via `resolve`; absent executable means
the browser is absent from the result. -/
def detectOne (env : Env) (browserId : Str) (resolve : Env → Str)
    (info : Str → BrowserInfo) : List (Str × BrowserInfo) :=
  if env.enabledOverride browserId = some false then []
  else
    let ex0 := env.execOverride browserId
    let ex := if ex0 = [] then resolve env else ex0
    if ex ≠ [] then [(browserId, info ex)] else []

/-- The scan part of `BrowserDetector::detectBrowsers` (run on a cache
miss): detect Firefox, Google Chrome and Chromium in order, honouring the
enabled/executable overrides. -/
def detectBrowsersFresh (env : Env) : List (Str × BrowserInfo) :=
  detectOne env "firefox".toList (fun e => findExecutable e "firefox".toList)
    (fun ex =>
      { name := "Firefox".toList, executable := ex,
        iconPath := "/usr/share/icons/hicolor/48x48/apps/firefox.png".toList,
        profiles := getFirefoxProfiles env, type := .firefox }) ++
  detectOne env "chrome".toList (fun e => findExecutableFromList e chromeExecVariants)
    (fun ex =>
      { name := "Google Chrome".toList, executable := ex,
        iconPath := "/usr/share/icons/hicolor/48x48/apps/google-chrome.png".toList,
        profiles := getChromeProfiles env "google-chrome".toList, type := .chrome }) ++
  detectOne env "chromium".toList (fun e => findExecutable e "chromium".toList)
    (fun ex =>
      { name := "Chromium".toList, executable := ex,
        iconPath := "/usr/share/icons/hicolor/48x48/apps/chromium.png".toList,
        profiles := getChromeProfiles env "chromium".toList, type := .chromium })

/-- The detector's mutable members: `m_cachedBrowsers` and
`m_lastDetection` (`none` models an invalid `QDateTime`). -/
structure DetectorState where
  cachedBrowsers : List (Str × BrowserInfo)
  lastDetection : Option Int
deriving Repr

/-- The detector's initial state (default-constructed members). -/
def DetectorState.initial : DetectorState := { cachedBrowsers := [], lastDetection := none }

/-- `BrowserDetector::detectBrowsers` with its result cache: a call at time
`now` returns the cached map unchanged when the cache is non-empty, the
last-detection stamp is valid, and fewer than 5 seconds have elapsed since
it; otherwise it scans afresh and replaces cache and stamp. -/
def detectBrowsers (env : Env) (now : Int) (st : DetectorState) :
    List (Str × BrowserInfo) × DetectorState :=
  let useCache :=
    !st.cachedBrowsers.isEmpty &&
      (match st.lastDetection with
       | some t => decide (now - t < 5)
       | none => false)
  if useCache then (st.cachedBrowsers, st)
  else
    let r := detectBrowsersFresh env
    (r, { cachedBrowsers := r, lastDetection := some now })

/-- The distinct launch-failure notifications emitted through the
`launchError` signal, with their message payloads. -/
inductive LaunchErr where
  | invalidUrl : Str → LaunchErr
  | invalidProfile : Str → LaunchErr
  | browserNotFound : Str → LaunchErr
  | profileNotFound : Str → Str → LaunchErr
  | unknownType : LaunchErr
  | startFailed : Str → LaunchErr
deriving Repr, DecidableEq

/-- Result of `BrowserDetector::launchBrowser`: the returned boolean, the
errors emitted during the call, and the detached process start request
(program and argv) if one was issued. -/
structure LaunchResult where
  success : Bool
  errors : List LaunchErr
  spawned : Option (Str × List Str)
deriving Repr, DecidableEq

/-- `BrowserDetector::launchBrowser`: sanitize and validate the URL and the
profile name, look the browser up in `m_cachedBrowsers` (the cache only —
no rescan), check the profile against that browser's profile map, build the
per-family argv, and request a detached process start (`spawnOk` models
whether the OS accepts `startDetached`). -/
def launchBrowser (cached : List (Str × BrowserInfo)) (spawnOk : Bool)
    (browser profile url : Str) : LaunchResult :=
  let sanitizedUrl := sanitizeUrl url
  let sanitizedProfile := sanitizeProfileName profile
  if !isValidUrl sanitizedUrl then
    { success := false, errors := [.invalidUrl url], spawned := none }
  else if !isValidProfileName sanitizedProfile then
    { success := false, errors := [.invalidProfile profile], spawned := none }
  else
    match lookupKV cached browser with
    | none => { success := false, errors := [.browserNotFound browser], spawned := none }
    | some browserInfo =>
      if !hasKey browserInfo.profiles sanitizedProfile then
        { success := false,
          errors := [.profileNotFound sanitizedProfile browser], spawned := none }
      else
        match browserInfo.type with
        | .firefox =>
          let args := ["-P".toList, sanitizedProfile, sanitizedUrl]
          if spawnOk then
            { success := true, errors := [], spawned := some (browserInfo.executable, args) }
          else
            { success := false, errors := [.startFailed browser], spawned := none }
        | .chrome | .chromium =>
          let args := ["--profile-directory=".toList ++ sanitizedProfile, sanitizedUrl]
          if spawnOk then
            { success := true, errors := [], spawned := some (browserInfo.executable, args) }
          else
            { success := false, errors := [.startFailed browser], spawned := none }
        | .unknown =>
          { success := false, errors := [.unknownType], spawned := none }

/-- `Constants::MIN_TIMEOUT`. -/
def MIN_TIMEOUT : Int := 5

/-- `Constants::MAX_TIMEOUT`. -/
def MAX_TIMEOUT : Int := 60

/-- `Constants::DEFAULT_TIMEOUT`. -/
def DEFAULT_TIMEOUT : Int := 10

/-- The `ConfigManager`-backed persistent store, restricted to the entries
the core reads: `General/DefaultTimeout`, `General/RememberLastUsed`,
`LastUsed/Browser`, `LastUsed/Profile`.  `none` models an absent entry
(`KConfigGroup::readEntry` then supplies the default). -/
structure Config where
  timeoutEntry : Option Int
  rememberEntry : Option Bool
  lastUsedBrowser : Option Str
  lastUsedProfile : Option Str
deriving Repr, DecidableEq

/-- `ConfigManager::defaultTimeout`: read with default `DEFAULT_TIMEOUT`. -/
def defaultTimeout (cfg : Config) : Int :=
  cfg.timeoutEntry.getD DEFAULT_TIMEOUT

/-- `ConfigManager::setDefaultTimeout`: store the value clamped with
`qBound(MIN_TIMEOUT, seconds, MAX_TIMEOUT)` (that is,
`max MIN (min MAX seconds)`). -/
def setDefaultTimeout (cfg : Config) (seconds : Int) : Config :=
  { cfg with timeoutEntry := some (max MIN_TIMEOUT (min MAX_TIMEOUT seconds)) }

/-- `ConfigManager::rememberLastUsed`: read with default `true`. -/
def rememberLastUsed (cfg : Config) : Bool :=
  cfg.rememberEntry.getD true

/-- `ConfigManager::getLastUsed`: read both keys with default `""`. -/
def getLastUsed (cfg : Config) : Str × Str :=
  (cfg.lastUsedBrowser.getD [], cfg.lastUsedProfile.getD [])

/-- `ConfigManager::setLastUsed`: a no-op when the remember-last-used
preference is off, otherwise record the pair. -/
def setLastUsed (cfg : Config) (browser profile : Str) : Config :=
  if !rememberLastUsed cfg then cfg
  else { cfg with lastUsedBrowser := some browser, lastUsedProfile := some profile }

/-- `ProfileManager::ProfileEntry`. -/
structure ProfileEntry where
  browser : Str
  browserDisplayName : Str
  profileId : Str
  profileDisplayName : Str
  iconPath : Str
  lastUsed : Int
  isEnabled : Bool
  isDefault : Bool
  order : Int
deriving Repr, DecidableEq

/-- The default-constructed `ProfileEntry` — the empty sentinel
(`isEnabled = true`, `isDefault = false`, `order = 999`). -/
def ProfileEntry.empty : ProfileEntry :=
  { browser := [], browserDisplayName := [], profileId := [],
    profileDisplayName := [], iconPath := [], lastUsed := 0,
    isEnabled := true, isDefault := false, order := 999 }

/-- `ProfileEntry::operator<`: display order, then browser id, then profile
display name. -/
def ltEntry (x y : ProfileEntry) : Bool :=
  if x.order ≠ y.order then decide (x.order < y.order)
  else if x.browser ≠ y.browser then ltStr x.browser y.browser
  else ltStr x.profileDisplayName y.profileDisplayName

/-- The sort key `ltEntry` actually compares. -/
def entryKey (e : ProfileEntry) : Int × Str × Str :=
  (e.order, e.browser, e.profileDisplayName)

/-- The non-strict ordering induced by `ltEntry`, as used to state
sortedness of the merged list. -/
def entryLe (x y : ProfileEntry) : Prop :=
  ltEntry y x = false

instance : DecidableRel entryLe := by
  intro x y
  unfold entryLe
  infer_instance

/-- `ProfileManager::sortProfiles` (`std::sort` with `operator<`),
specified by `std::sort`'s contract: the output is a permutation of the
input that is sorted by the comparator's induced non-strict order.
`std::sort` is not stable, so which permutation of key-equivalent entries
comes out is unspecified — the relation admits every one of them. -/
def sortProfiles (input output : List ProfileEntry) : Prop :=
  output.Perm input ∧ output.Sorted entryLe

/-- `ProfileManager::getAllProfiles`: the full list, or only the enabled
entries when `enabledOnly`. -/
def getAllProfiles (profiles : List ProfileEntry) (enabledOnly : Bool) :
    List ProfileEntry :=
  if enabledOnly then profiles.filter (fun e => e.isEnabled) else profiles

/-- `ProfileManager::getProfile`: first entry matching (browser, profileId)
exactly, else the empty sentinel. -/
def getProfile (profiles : List ProfileEntry) (browser profileId : Str) :
    ProfileEntry :=
  match profiles.find?
      (fun e => decide (e.browser = browser) && decide (e.profileId = profileId)) with
  | some e => e
  | none => ProfileEntry.empty

/-- `ProfileManager::getDefaultProfile`: the configured last-used entry when
both halves of the pair are non-empty and the lookup yields a non-sentinel,
enabled entry; otherwise the first enabled profile; otherwise the sentinel. -/
def getDefaultProfile (profiles : List ProfileEntry) (cfg : Config) :
    ProfileEntry :=
  let lastUsed := getLastUsed cfg
  let fallback :=
    match getAllProfiles profiles true with
    | [] => ProfileEntry.empty
    | e :: _ => e
  if lastUsed.1 ≠ [] ∧ lastUsed.2 ≠ [] then
    let entry := getProfile profiles lastUsed.1 lastUsed.2
    if entry.browser ≠ [] ∧ entry.isEnabled then entry else fallback
  else fallback

/-- Notifications emitted by `ProfileManager` during a launch:
`profileLaunched` and `profileLaunchFailed` (the latter forwarded from the
detector's `launchError` by `ProfileManager::onLaunchError`). -/
inductive ManagerEvent where
  | launched : Str → Str → ManagerEvent
  | launchFailed : LaunchErr → ManagerEvent
deriving Repr, DecidableEq

/-- `ProfileManager::launchProfile`: delegate to
`BrowserDetector::launchBrowser`; on success record the pair as last-used
(a no-op when remember-last-used is off) and emit `profileLaunched`;
failures surface as `profileLaunchFailed` events; return the detector's
success boolean. -/
def launchProfile (cached : List (Str × BrowserInfo)) (spawnOk : Bool)
    (cfg : Config) (browser profileId url : Str) :
    Bool × Config × List ManagerEvent :=
  let r := launchBrowser cached spawnOk browser profileId url
  let failures := r.errors.map ManagerEvent.launchFailed
  if r.success then
    (true, setLastUsed cfg browser profileId,
      failures ++ [.launched browser profileId])
  else
    (false, cfg, failures)

/-- C1 (counterexample): the claim "isValidUrl accepts exactly the strings
that are non-empty, dangerous-character-free, and either scheme-less or
carrying an allow-listed scheme; every string with a scheme outside the
allow-list is rejected" is false at `"javascript:alert1"`: its scheme is
`javascript`, outside the allow-list, yet `isValidUrl` accepts it (the
fall-through branch only tests for the substring `"://"`). -/
theorem urlClaim_counterexample :
    ¬ (isValidUrl "javascript:alert1".toList = true ↔
        ("javascript:alert1".toList ≠ ([] : Str) ∧
         hasDangerousChar "javascript:alert1".toList = false ∧
         (schemeOf "javascript:alert1".toList = none ∨
          allowedSchemes.contains
            ((schemeOf "javascript:alert1".toList).getD []) = true))) := by
  decide

/-- C1 (amended): for every verdict function `v` standing for
`QUrl::isValid` — hence in particular for Qt's actual one, whatever it
computes — `isValidUrlWith v` accepts exactly the non-empty strings free of
blacklisted characters that either parse as valid with an empty or
allow-listed scheme, or do not contain the substring `"://"` (so a
disallowed scheme alone does not force rejection).  The program's
`isValidUrl` is this function at the concrete `qurlIsValid` model. -/
theorem isValidUrl_characterization (v : Str → Bool) (u : Str) :
    isValidUrlWith v u = true ↔
      (u ≠ [] ∧ hasDangerousChar u = false ∧
        ((v u = true ∧
           ((schemeOf u).getD [] = [] ∨ (schemeOf u).getD [] ∈ allowedSchemes)) ∨
         containsSeq "://".toList u = false)) := by
  unfold isValidUrlWith
  by_cases hu : u.isEmpty
  · have : u = [] := by
      cases u with
      | nil => rfl
      | cons c cs => simp [List.isEmpty] at hu
    subst this
    simp
  · have hne : u ≠ [] := by
      intro h
      subst h
      simp [List.isEmpty] at hu
    rw [if_neg (by simp [hu])]
    by_cases h1 : (v u && ((schemeOf u).getD []).isEmpty ||
        v u && allowedSchemes.contains ((schemeOf u).getD [])) = true
    · rw [if_pos h1]
      have hd : v u = true ∧
          ((schemeOf u).getD [] = [] ∨ (schemeOf u).getD [] ∈ allowedSchemes) := by
        rcases Bool.or_eq_true_iff.mp h1 with h | h
        · have h' := Bool.and_eq_true_iff.mp h
          exact ⟨h'.1, Or.inl (by simpa using h'.2)⟩
        · have h' := Bool.and_eq_true_iff.mp h
          exact ⟨h'.1, Or.inr (by simpa using h'.2)⟩
      constructor
      · intro hacc
        exact ⟨hne, by simpa using hacc, Or.inl hd⟩
      · rintro ⟨-, hdang, -⟩
        simpa using hdang
    · rw [if_neg h1]
      have h2 : ¬ (v u = true ∧
          ((schemeOf u).getD [] = [] ∨ (schemeOf u).getD [] ∈ allowedSchemes)) := by
        rintro ⟨hv, hsc | hsc⟩
        · exact h1 (Bool.or_eq_true_iff.mpr (Or.inl
            (Bool.and_eq_true_iff.mpr ⟨hv, by simp [hsc]⟩)))
        · exact h1 (Bool.or_eq_true_iff.mpr (Or.inr
            (Bool.and_eq_true_iff.mpr ⟨hv, by simpa using hsc⟩)))
      by_cases h3 : containsSeq "://".toList u = true
      · have h3n : containsSeq [':', '/', '/'] u = true := h3
        simp [h3n, h2, hne]
      · have h3n : containsSeq [':', '/', '/'] u = false := Bool.not_eq_true _ ▸ h3
        simp [h3n, h2, hne, Bool.not_eq_true']

/-- C9: `setDefaultTimeout(s)` stores `s` clamped to `[5, 60]`, so a
subsequent `defaultTimeout()` read returns `max 5 (min 60 s)`. -/
theorem setDefaultTimeout_clamps (cfg : Config) (s : Int) :
    defaultTimeout (setDefaultTimeout cfg s) = max 5 (min 60 s) := by
  simp [defaultTimeout, setDefaultTimeout, MIN_TIMEOUT, MAX_TIMEOUT]

/-- Spec-side restatement of default-profile resolution (written from the
spec's words, for comparison with `getDefaultProfile`): return the entry the
last-used pair resolves to exactly when the pair is non-empty, the lookup
finds an entry in the registry, and that entry is enabled; otherwise the
first element of the enabled-only list; otherwise the empty sentinel. -/
def defaultProfileSpec (profiles : List ProfileEntry) (cfg : Config) :
    ProfileEntry :=
  let lastUsed := getLastUsed cfg
  let found := profiles.find?
    (fun e => decide (e.browser = lastUsed.1) && decide (e.profileId = lastUsed.2))
  let fallback :=
    match getAllProfiles profiles true with
    | [] => ProfileEntry.empty
    | e :: _ => e
  match found with
  | some e => if lastUsed.1 ≠ [] ∧ lastUsed.2 ≠ [] ∧ e.isEnabled then e else fallback
  | none => fallback

/-- C2: `getDefaultProfile` implements the spec's resolution order — the
last-used entry exactly when the configured pair is non-empty, present in
the registry, and enabled; else the first enabled entry; else the empty
sentinel. -/
theorem getDefaultProfile_spec (profiles : List ProfileEntry) (cfg : Config) :
    getDefaultProfile profiles cfg = defaultProfileSpec profiles cfg := by
  unfold getDefaultProfile defaultProfileSpec getProfile
  cases h : profiles.find?
      (fun e => decide (e.browser = (getLastUsed cfg).1) &&
        decide (e.profileId = (getLastUsed cfg).2)) with
  | none =>
    simp [h, ProfileEntry.empty]
  | some e =>
    have hm := List.find?_some h
    simp only [Bool.and_eq_true, decide_eq_true_eq] at hm
    obtain ⟨hb, hp⟩ := hm
    by_cases hcond : (getLastUsed cfg).1 ≠ [] ∧ (getLastUsed cfg).2 ≠ []
    · have hbne : e.browser ≠ [] := by
        rw [hb]
        exact hcond.1
      simp [h, hcond, hbne, hcond.1, hcond.2, and_assoc]
    · have hcond' : ¬ ((getLastUsed cfg).1 ≠ [] ∧ (getLastUsed cfg).2 ≠ [] ∧ e.isEnabled) := by
        intro hc
        exact hcond ⟨hc.1, hc.2.1⟩
      simp [h, hcond, hcond']

theorem ltEntry_irrefl (a : ProfileEntry) : ltEntry a a = false := by
  unfold ltEntry
  simp [ltStr_irrefl]

theorem ltEntry_trans (a b c : ProfileEntry) (hab : ltEntry a b = true)
    (hbc : ltEntry b c = true) : ltEntry a c = true := by
  unfold ltEntry at hab hbc ⊢
  by_cases h1 : a.order = b.order
  · rw [if_neg (not_not_intro h1)] at hab
    by_cases h2 : b.order = c.order
    · rw [if_neg (not_not_intro h2)] at hbc
      have h13 : a.order = c.order := h1.trans h2
      rw [if_neg (not_not_intro h13)]
      by_cases g1 : a.browser = b.browser
      · rw [if_neg (not_not_intro g1)] at hab
        by_cases g2 : b.browser = c.browser
        · rw [if_neg (not_not_intro g2)] at hbc
          rw [if_neg (not_not_intro (g1.trans g2))]
          exact ltStr_trans _ _ _ hab hbc
        · rw [if_pos g2] at hbc
          have g13 : a.browser ≠ c.browser := by
            rw [g1]
            exact g2
          rw [if_pos g13, g1]
          exact hbc
      · rw [if_pos g1] at hab
        by_cases g2 : b.browser = c.browser
        · rw [if_neg (not_not_intro g2)] at hbc
          have g13 : a.browser ≠ c.browser := by
            rw [← g2]
            exact g1
          rw [if_pos g13, ← g2]
          exact hab
        · rw [if_pos g2] at hbc
          have hac : ltStr a.browser c.browser = true := ltStr_trans _ _ _ hab hbc
          have g13 : a.browser ≠ c.browser := by
            intro he
            rw [he] at hac
            rw [ltStr_irrefl] at hac
            exact absurd hac (by simp)
          rw [if_pos g13]
          exact hac
    · rw [if_pos h2] at hbc
      have hbc' : b.order < c.order := of_decide_eq_true hbc
      have hac : a.order < c.order := h1 ▸ hbc'
      rw [if_pos (ne_of_lt hac)]
      exact decide_eq_true hac
  · rw [if_pos h1] at hab
    have hab' : a.order < b.order := of_decide_eq_true hab
    by_cases h2 : b.order = c.order
    · have hac : a.order < c.order := h2 ▸ hab'
      rw [if_pos (ne_of_lt hac)]
      exact decide_eq_true hac
    · rw [if_pos h2] at hbc
      have hbc' : b.order < c.order := of_decide_eq_true hbc
      have hac : a.order < c.order := lt_trans hab' hbc'
      rw [if_pos (ne_of_lt hac)]
      exact decide_eq_true hac

theorem ltEntry_key_total (a b : ProfileEntry) (hab : ltEntry a b = false)
    (hba : ltEntry b a = false) : entryKey a = entryKey b := by
  unfold ltEntry at hab hba
  by_cases h1 : a.order = b.order
  · rw [if_neg (not_not_intro h1)] at hab
    rw [if_neg (not_not_intro h1.symm)] at hba
    by_cases g1 : a.browser = b.browser
    · rw [if_neg (not_not_intro g1)] at hab
      rw [if_neg (not_not_intro g1.symm)] at hba
      unfold entryKey
      rw [h1, g1, ltStr_antisymm_eq _ _ hab hba]
    · rw [if_pos g1] at hab
      rw [if_pos (fun he => g1 he.symm)] at hba
      exact absurd (ltStr_antisymm_eq _ _ hab hba) g1
  · rw [if_pos h1] at hab
    rw [if_pos (fun he => h1 he.symm)] at hba
    have hna : ¬ a.order < b.order := of_decide_eq_false hab
    have hnb : ¬ b.order < a.order := of_decide_eq_false hba
    exact absurd (le_antisymm (not_lt.mp hnb) (not_lt.mp hna)) h1

/-- Two registry entries that differ only in their profile id: the merged
list comparison sees them as equivalent. -/
def entryA : ProfileEntry :=
  { browser := "chrome".toList, browserDisplayName := "Google Chrome".toList,
    profileId := "Default".toList, profileDisplayName := "Work".toList,
    iconPath := [], lastUsed := 0, isEnabled := true, isDefault := false,
    order := 1 }

/-- Same sort key as `entryA`, different profile id. -/
def entryB : ProfileEntry :=
  { browser := "chrome".toList, browserDisplayName := "Google Chrome".toList,
    profileId := "Profile 1".toList, profileDisplayName := "Work".toList,
    iconPath := [], lastUsed := 0, isEnabled := true, isDefault := false,
    order := 1 }

/-- C3 (counterexample): the claim that no two distinct entries (including
entries differing only in profile id) compare as equivalent is false:
`entryA` and `entryB` differ in profile id yet neither is less than the
other under `ltEntry`. -/
theorem entryOrder_counterexample :
    entryA ≠ entryB ∧ ltEntry entryA entryB = false ∧
      ltEntry entryB entryA = false := by
  decide

/-- The comparison `ltEntry` restricted to sort keys. -/
def ltKey (k1 k2 : Int × Str × Str) : Bool :=
  if k1.1 ≠ k2.1 then decide (k1.1 < k2.1)
  else if k1.2.1 ≠ k2.2.1 then ltStr k1.2.1 k2.2.1
  else ltStr k1.2.2 k2.2.2

theorem ltKey_antisymm_eq (k1 k2 : Int × Str × Str) (h1 : ltKey k1 k2 = false)
    (h2 : ltKey k2 k1 = false) : k1 = k2 :=
  ltEntry_key_total
    { ProfileEntry.empty with
        order := k1.1, browser := k1.2.1, profileDisplayName := k1.2.2 }
    { ProfileEntry.empty with
        order := k2.1, browser := k2.2.1, profileDisplayName := k2.2.2 }
    h1 h2

/-- The non-strict ordering on sort keys induced by `ltKey`. -/
def keyLe (k1 k2 : Int × Str × Str) : Prop :=
  ltKey k2 k1 = false

instance : IsAntisymm (Int × Str × Str) keyLe :=
  ⟨fun a b h1 h2 => ltKey_antisymm_eq a b h2 h1⟩

/-- C3 (amended): `ltEntry` is a strict weak order — irreflexive and
transitive, and total on the sort key (display order, browser id, profile
display name): entries that compare as equivalent agree on that key, though
they may differ in other fields such as the profile id.  Because `std::sort`
is not stable, re-sorting an already-sorted list may permute key-equivalent
entries; what is invariant is the key sequence: every `std::sort`-contract
output for a list already sorted by the induced non-strict order carries
the same sequence of sort keys as the input. -/
theorem entryOrder_strict_weak :
    (∀ a : ProfileEntry, ltEntry a a = false) ∧
    (∀ a b c : ProfileEntry,
      ltEntry a b = true → ltEntry b c = true → ltEntry a c = true) ∧
    (∀ a b : ProfileEntry,
      ltEntry a b = false → ltEntry b a = false → entryKey a = entryKey b) ∧
    (∀ l l' : List ProfileEntry, l.Sorted entryLe → sortProfiles l l' →
      l'.map entryKey = l.map entryKey) :=
  ⟨ltEntry_irrefl, ltEntry_trans, ltEntry_key_total,
    fun l l' hs hso => by
      have h1 : (l'.map entryKey).Sorted keyLe :=
        List.Pairwise.map entryKey
          (fun a b (h : entryLe a b) => (h : keyLe (entryKey a) (entryKey b))) hso.2
      have h2 : (l.map entryKey).Sorted keyLe :=
        List.Pairwise.map entryKey
          (fun a b (h : entryLe a b) => (h : keyLe (entryKey a) (entryKey b))) hs
      exact List.eq_of_perm_of_sorted (hso.1.map entryKey) h1 h2⟩

/-- C3 (witness): the amended theorem applied at concrete entries — a
self-comparison, an equivalence forced onto the shared key, and a sorted
permutation (the reversed pair of key-equivalent entries, a possible
`std::sort` output) of a concretely sorted list carrying the same key
sequence. -/
theorem entryOrder_strict_weak_witness :
    ltEntry entryA entryA = false ∧
    entryKey entryA = entryKey entryB ∧
    [entryB, entryA].map entryKey = [entryA, entryB].map entryKey :=
  ⟨entryOrder_strict_weak.1 entryA,
   entryOrder_strict_weak.2.2.1 entryA entryB (by decide) (by decide),
   entryOrder_strict_weak.2.2.2 [entryA, entryB] [entryB, entryA] (by decide)
     ⟨by decide, by decide⟩⟩

theorem hasKey_append {α : Type} (m1 m2 : List (Str × α)) (k : Str) :
    hasKey (m1 ++ m2) k = (hasKey m1 k || hasKey m2 k) := by
  unfold hasKey
  exact List.any_append

theorem hasKey_detectOne_false (env : Env) (browserId b : Str)
    (resolve : Env → Str) (info : Str → BrowserInfo)
    (h : env.enabledOverride b = some false) :
    hasKey (detectOne env browserId resolve info) b = false := by
  unfold detectOne
  by_cases hd : env.enabledOverride browserId = some false
  · simp [hd, hasKey]
  · have hne : browserId ≠ b := by
      intro he
      subst he
      exact hd h
    simp only [hd, if_false]
    repeat' split
    all_goals simp [hasKey, hne]

/-- C5: a browser id explicitly disabled by an override is absent from the
discovery scan's result map, whatever the rest of the environment — in
particular even when an executable-path override is supplied for that id
and the executable exists. -/
theorem detectBrowsers_disabled_override (env : Env) (b : Str)
    (h : env.enabledOverride b = some false) :
    hasKey (detectBrowsersFresh env) b = false := by
  unfold detectBrowsersFresh
  rw [hasKey_append, hasKey_append]
  rw [hasKey_detectOne_false env _ b _ _ h, hasKey_detectOne_false env _ b _ _ h,
    hasKey_detectOne_false env _ b _ _ h]
  rfl

/-- Environment in which every file exists and is executable, chrome has an
executable-path override, and chrome is explicitly disabled. -/
def envDisabledChrome : Env :=
  { home := "/h".toList,
    pathLookup := fun _ => [],
    fileExists := fun _ => true,
    isExec := fun _ => true,
    dirExists := fun _ => false,
    mtime := fun _ => 0,
    jsonAt := fun _ => none,
    iniGroups := fun _ => [],
    enabledOverride := fun s => if s = "chrome".toList then some false else none,
    execOverride := fun s =>
      if s = "chrome".toList then "/usr/bin/google-chrome".toList else [] }

/-- C5 (witness): in `envDisabledChrome` — chrome disabled by override while
its executable override exists and is executable — the scan omits chrome. -/
theorem detectBrowsers_disabled_override_witness :
    hasKey (detectBrowsersFresh envDisabledChrome) "chrome".toList = false :=
  detectBrowsers_disabled_override envDisabledChrome "chrome".toList (by decide)

/-- C10: `launchBrowser` consults only the cached discovery result: with an
empty cache (no `detectBrowsers` call since construction) and inputs that
pass URL and profile-name validation, it fails with the browser-not-found
error and issues no process start, for every browser, profile and spawn
outcome. -/
theorem launchBrowser_emptyCache (spawnOk : Bool) (browser profile url : Str)
    (hu : isValidUrl (sanitizeUrl url) = true)
    (hp : isValidProfileName (sanitizeProfileName profile) = true) :
    launchBrowser [] spawnOk browser profile url =
      { success := false, errors := [.browserNotFound browser], spawned := none } := by
  simp [launchBrowser, hu, hp, lookupKV]

/-- C10 (witness): the theorem applied at a concrete valid URL and profile
name with an empty cache. -/
theorem launchBrowser_emptyCache_witness :
    launchBrowser [] true "firefox".toList "Work".toList
        "https://example.com".toList =
      { success := false, errors := [.browserNotFound "firefox".toList],
        spawned := none } :=
  launchBrowser_emptyCache true "firefox".toList "Work".toList
    "https://example.com".toList (by decide) (by decide)

/-- Environment with no browsers installed and no overrides. -/
def envEmpty : Env :=
  { home := "/h".toList,
    pathLookup := fun _ => [],
    fileExists := fun _ => false,
    isExec := fun _ => false,
    dirExists := fun _ => false,
    mtime := fun _ => 0,
    jsonAt := fun _ => none,
    iniGroups := fun _ => [],
    enabledOverride := fun _ => none,
    execOverride := fun _ => [] }

/-- Like `envEmpty`, but firefox is now on the PATH (the filesystem changed
between two calls). -/
def envFox : Env :=
  { envEmpty with
    pathLookup := fun n =>
      if n = "firefox".toList then "/usr/bin/firefox".toList else [] }

/-- C6 (counterexample): the claim that a second `detectBrowsers` call
within 5 seconds returns the first call's cached result unconditionally —
including when that result was empty — is false: after a first call at
time 0 that found nothing, a second call at time 1 re-scans (the cache is
only consulted when non-empty) and can return a non-empty map. -/
theorem detectCache_counterexample :
    ¬ ((detectBrowsers envFox 1 (detectBrowsers envEmpty 0 DetectorState.initial).2).1 =
        (detectBrowsers envEmpty 0 DetectorState.initial).1) := by
  decide

/-- C6 (amended): a second call within 5 seconds returns the first call's
result unchanged (no re-scan, state untouched) provided the first call
performed a scan whose result was non-empty; an empty scan result does not
populate a usable cache. -/
theorem detectCache_within_window (env1 env2 : Env) (st0 : DetectorState)
    (now1 now2 : Int) (hmiss : st0.cachedBrowsers = [])
    (hne : detectBrowsersFresh env1 ≠ []) (hwin : now2 - now1 < 5) :
    detectBrowsers env2 now2 (detectBrowsers env1 now1 st0).2 =
      ((detectBrowsers env1 now1 st0).1, (detectBrowsers env1 now1 st0).2) := by
  have h1 : detectBrowsers env1 now1 st0 =
      (detectBrowsersFresh env1,
        { cachedBrowsers := detectBrowsersFresh env1, lastDetection := some now1 }) := by
    unfold detectBrowsers
    rw [hmiss]
    simp
  rw [h1]
  unfold detectBrowsers
  have h2 : (detectBrowsersFresh env1).isEmpty = false := by
    cases h : detectBrowsersFresh env1 with
    | nil => exact absurd h hne
    | cons x xs => rfl
  simp [h2, hwin]

/-- C6 (witness): the amended theorem at concrete inputs — a successful
scan at time 0 in `envFox` is served from cache at time 3 under the
different environment `envEmpty`. -/
theorem detectCache_within_window_witness :
    detectBrowsers envEmpty 3 (detectBrowsers envFox 0 DetectorState.initial).2 =
      ((detectBrowsers envFox 0 DetectorState.initial).1,
        (detectBrowsers envFox 0 DetectorState.initial).2) :=
  detectCache_within_window envFox envEmpty DetectorState.initial 0 3 rfl
    (by decide) (by decide)

theorem launchBrowser_fail_singleton (cached : List (Str × BrowserInfo))
    (spawnOk : Bool) (browser profile url : Str)
    (h : (launchBrowser cached spawnOk browser profile url).success = false) :
    ∃ e, (launchBrowser cached spawnOk browser profile url).errors = [e] := by
  cases hc1 : isValidUrl (sanitizeUrl url) with
  | false => exact ⟨.invalidUrl url, by simp [launchBrowser, hc1]⟩
  | true =>
    cases hc2 : isValidProfileName (sanitizeProfileName profile) with
    | false => exact ⟨.invalidProfile profile, by simp [launchBrowser, hc1, hc2]⟩
    | true =>
      cases hc3 : lookupKV cached browser with
      | none => exact ⟨.browserNotFound browser, by simp [launchBrowser, hc1, hc2, hc3]⟩
      | some bi =>
        cases hc4 : hasKey bi.profiles (sanitizeProfileName profile) with
        | false =>
          exact ⟨.profileNotFound (sanitizeProfileName profile) browser,
            by simp [launchBrowser, hc1, hc2, hc3, hc4]⟩
        | true =>
          cases hc5 : bi.type with
          | unknown => exact ⟨.unknownType, by simp [launchBrowser, hc1, hc2, hc3, hc4, hc5]⟩
          | firefox =>
            cases spawnOk with
            | true => simp [launchBrowser, hc1, hc2, hc3, hc4, hc5] at h
            | false =>
              exact ⟨.startFailed browser, by simp [launchBrowser, hc1, hc2, hc3, hc4, hc5]⟩
          | chrome =>
            cases spawnOk with
            | true => simp [launchBrowser, hc1, hc2, hc3, hc4, hc5] at h
            | false =>
              exact ⟨.startFailed browser, by simp [launchBrowser, hc1, hc2, hc3, hc4, hc5]⟩
          | chromium =>
            cases spawnOk with
            | true => simp [launchBrowser, hc1, hc2, hc3, hc4, hc5] at h
            | false =>
              exact ⟨.startFailed browser, by simp [launchBrowser, hc1, hc2, hc3, hc4, hc5]⟩

/-- C8: `launchProfile` returns the launch executor's success boolean; on
success it records (browser, profileId) as last-used — a no-op leaving the
configuration unchanged when remember-last-used is off, without affecting
the returned result — and emits the launched notification; on failure the
configuration is unchanged and a launch-failed notification carrying the
error is emitted. -/
theorem launchProfile_spec (cached : List (Str × BrowserInfo)) (spawnOk : Bool)
    (cfg : Config) (browser profileId url : Str) :
    ((launchProfile cached spawnOk cfg browser profileId url).1 =
      (launchBrowser cached spawnOk browser profileId url).success) ∧
    ((launchBrowser cached spawnOk browser profileId url).success = true →
      (launchProfile cached spawnOk cfg browser profileId url).2.1 =
          setLastUsed cfg browser profileId ∧
        ManagerEvent.launched browser profileId ∈
          (launchProfile cached spawnOk cfg browser profileId url).2.2) ∧
    ((launchBrowser cached spawnOk browser profileId url).success = false →
      (launchProfile cached spawnOk cfg browser profileId url).2.1 = cfg ∧
        ∃ e, (launchBrowser cached spawnOk browser profileId url).errors = [e] ∧
          ManagerEvent.launchFailed e ∈
            (launchProfile cached spawnOk cfg browser profileId url).2.2) ∧
    (rememberLastUsed cfg = false →
      (launchProfile cached spawnOk cfg browser profileId url).2.1 = cfg) := by
  cases hs : (launchBrowser cached spawnOk browser profileId url).success with
  | true =>
    refine ⟨by simp [launchProfile, hs], fun _ => ⟨by simp [launchProfile, hs], ?_⟩,
      fun hf => absurd hf (by simp), fun hrem => ?_⟩
    · simp [launchProfile, hs]
    · simp [launchProfile, hs, setLastUsed, hrem]
  | false =>
    obtain ⟨e, he⟩ := launchBrowser_fail_singleton cached spawnOk browser profileId url hs
    refine ⟨by simp [launchProfile, hs], fun ht => absurd ht (by simp),
      fun _ => ⟨by simp [launchProfile, hs], ⟨e, he, ?_⟩⟩, fun _ => by simp [launchProfile, hs]⟩
    simp [launchProfile, hs, he]

/-- A concrete firefox profile for the launch witness. -/
def profileInfoW : ProfileInfo :=
  { name := "Work".toList, path := "Work".toList, displayName := "Work".toList,
    lastUsed := 0, isDefault := false }

/-- A concrete detected firefox for the launch witness. -/
def browserInfoW : BrowserInfo :=
  { name := "Firefox".toList, executable := "/usr/bin/firefox".toList,
    iconPath := [], profiles := [("Work".toList, profileInfoW)], type := .firefox }

/-- A concrete configuration with remember-last-used on. -/
def cfgW : Config :=
  { timeoutEntry := none, rememberEntry := some true,
    lastUsedBrowser := none, lastUsedProfile := none }

/-- C8 (witness): the theorem applied at a concrete successful launch —
the last-used pair is recorded and the launched notification emitted. -/
theorem launchProfile_spec_witness :
    (launchProfile [("firefox".toList, browserInfoW)] true cfgW "firefox".toList
        "Work".toList "https://example.com".toList).2.1 =
      setLastUsed cfgW "firefox".toList "Work".toList ∧
    ManagerEvent.launched "firefox".toList "Work".toList ∈
      (launchProfile [("firefox".toList, browserInfoW)] true cfgW "firefox".toList
        "Work".toList "https://example.com".toList).2.2 :=
  (launchProfile_spec [("firefox".toList, browserInfoW)] true cfgW "firefox".toList
    "Work".toList "https://example.com".toList).2.1 (by decide)

theorem hasKey_map_keyfix {α : Type} (k : Str) (v : α) :
    ∀ (m : List (Str × α)) (q : Str),
      hasKey (m.map fun p => if p.1 = k then (k, v) else p) q = hasKey m q := by
  intro m
  induction m with
  | nil => intro q; rfl
  | cons p ps ih =>
    intro q
    simp only [List.map_cons, hasKey, List.any_cons] at *
    by_cases hp : p.1 = k
    · rw [if_pos hp]
      simp [hp, ih q]
    · rw [if_neg hp]
      simp [ih q]

theorem hasKey_insertKV_iff {α : Type} (k : Str) (v : α) (m : List (Str × α))
    (q : Str) :
    hasKey (insertKV k v m) q = true ↔ (q = k ∨ hasKey m q = true) := by
  unfold insertKV
  by_cases hin : m.any (fun p => decide (p.1 = k)) = true
  · rw [if_pos hin, hasKey_map_keyfix]
    have hk : hasKey m k = true := hin
    constructor
    · intro h
      exact Or.inr h
    · rintro (rfl | h)
      · exact hk
      · exact h
  · rw [if_neg hin, hasKey_append]
    simp only [Bool.or_eq_true, hasKey, List.any_cons, List.any_nil,
      Bool.or_false, decide_eq_true_eq]
    constructor
    · rintro (h | h)
      · exact Or.inr h
      · exact Or.inl h.symm
    · rintro (rfl | h)
      · exact Or.inr rfl
      · exact Or.inl h

theorem hasKey_chromeFold (env : Env) (configDir : Str) :
    ∀ (entries : List (Str × Json)) (acc : List (Str × ProfileInfo)) (q : Str),
      hasKey (entries.foldl (chromeStep env configDir) acc) q = true ↔
        (hasKey acc q = true ∨ ∃ e ∈ entries, e.1 = q ∧
          env.dirExists (configDir ++ "/".toList ++ e.1) = true) := by
  intro entries
  induction entries with
  | nil =>
    intro acc q
    simp
  | cons e es ih =>
    intro acc q
    rw [List.foldl_cons, ih]
    unfold chromeStep
    by_cases hd : env.dirExists (configDir ++ "/".toList ++ e.1) = true
    · rw [if_pos hd]
      rw [hasKey_insertKV_iff]
      simp only [List.mem_cons]
      constructor
      · rintro ((rfl | h) | h)
        · exact Or.inr ⟨e, Or.inl rfl, rfl, hd⟩
        · exact Or.inl h
        · obtain ⟨x, hx, hq, hdx⟩ := h
          exact Or.inr ⟨x, Or.inr hx, hq, hdx⟩
      · rintro (h | h)
        · exact Or.inl (Or.inr h)
        · obtain ⟨x, hx | hx, hq, hdx⟩ := h
          · subst hx
            exact Or.inl (Or.inl hq.symm)
          · exact Or.inr ⟨x, hx, hq, hdx⟩
    · rw [if_neg hd]
      simp only [List.mem_cons]
      constructor
      · rintro (h | h)
        · exact Or.inl h
        · obtain ⟨x, hx, hq, hdx⟩ := h
          exact Or.inr ⟨x, Or.inr hx, hq, hdx⟩
      · rintro (h | h)
        · exact Or.inl h
        · obtain ⟨x, hx | hx, hq, hdx⟩ := h
          · subst hx
            exact absurd hdx hd
          · exact Or.inr ⟨x, hx, hq, hdx⟩

theorem hasKey_map_stamp (env : Env) (browserName configPath : Str)
    (m : List (Str × ProfileInfo)) (q : Str) :
    hasKey (m.map (stampChrome env browserName configPath)) q = hasKey m q := by
  induction m with
  | nil => rfl
  | cons p ps ih =>
    simp only [List.map_cons, hasKey, List.any_cons] at *
    rw [ih]
    rfl

/-- Environment of C4's counterexample: the chromium `Local State` file
exists on disk but cannot be parsed as a JSON object. -/
def envBadJson : Env :=
  { envEmpty with
    fileExists := fun s => decide (s = "/h/.config/chromium/Local State".toList),
    jsonAt := fun _ => none }

/-- C4 (counterexample): the claim that a present `Local State` file always
yields a profile keyed `"Default"` is false: in `envBadJson` the file exists
but is not a JSON object, and the enumeration is empty — no `"Default"`. -/
theorem chromeProfiles_counterexample :
    envBadJson.fileExists "/h/.config/chromium/Local State".toList = true ∧
    hasKey (getChromeProfiles envBadJson "chromium".toList) "Default".toList = false := by
  decide

/-- C4 (amended): if the `Local State` file is absent the enumeration is
empty; a key is present in the enumeration exactly when the file exists,
parses as a JSON object, and the key is `"Default"` or an
`profile.info_cache` entry name whose profile subdirectory exists on disk.
(In particular, a present but unreadable or non-object file also yields an
empty mapping, without even the synthesized `"Default"`.) -/
theorem chromeProfiles_characterization (env : Env) (browserName q : Str) :
    (env.fileExists (localStatePath env browserName) = false →
      getChromeProfiles env browserName = []) ∧
    (hasKey (getChromeProfiles env browserName) q = true ↔
      (env.fileExists (localStatePath env browserName) = true ∧
       ∃ root, env.jsonAt (localStatePath env browserName) = some (Json.obj root) ∧
         (q = "Default".toList ∨
          ∃ e ∈ (((Json.obj root).get "profile".toList).get "info_cache".toList).toObject,
            e.1 = q ∧
              env.dirExists (getChromeProfilePath env browserName ++ "/".toList ++
                e.1) = true))) := by
  constructor
  · intro h
    simp only [getChromeProfiles]
    rw [h]
    simp
  · by_cases hfe : env.fileExists (localStatePath env browserName) = true
    · simp only [getChromeProfiles, hfe, Bool.not_true, Bool.false_eq_true, if_false,
        hasKey_map_stamp, true_and]
      cases hdoc : env.jsonAt (localStatePath env browserName) with
      | none => simp [parseChromiumLocalState, hasKey]
      | some j =>
        cases j with
        | obj root =>
          simp only [parseChromiumLocalState]
          rw [hasKey_chromeFold]
          simp only [hasKey, List.any_cons, List.any_nil, Bool.or_false,
            decide_eq_true_eq, Option.some.injEq, Json.obj.injEq]
          constructor
          · rintro (h | h)
            · exact ⟨root, rfl, Or.inl h.symm⟩
            · exact ⟨root, rfl, Or.inr h⟩
          · rintro ⟨r, hr, h | h⟩
            · cases hr
              exact Or.inl h.symm
            · cases hr
              exact Or.inr h
        | str s => simp [parseChromiumLocalState, hasKey]
        | num n => simp [parseChromiumLocalState, hasKey]
        | other => simp [parseChromiumLocalState, hasKey]
    · have hfe' : env.fileExists (localStatePath env browserName) = false :=
        Bool.not_eq_true _ ▸ hfe
      simp [getChromeProfiles, hfe', hasKey]

/-- A `Local State` document with one `info_cache` entry, `Profile 1`. -/
def rootW : List (Str × Json) :=
  [("profile".toList, Json.obj
    [("info_cache".toList, Json.obj
      [("Profile 1".toList, Json.obj
        [("name".toList, Json.str "Work".toList)])])])]

/-- Environment with a well-formed chromium `Local State` and all profile
subdirectories present. -/
def envGoodJson : Env :=
  { envEmpty with
    fileExists := fun _ => true,
    dirExists := fun _ => true,
    jsonAt := fun _ => some (Json.obj rootW) }

/-- C4 (witness): the amended theorem applied in `envGoodJson` shows the
`info_cache` entry `Profile 1` appears in the enumeration. -/
theorem chromeProfiles_characterization_witness :
    hasKey (getChromeProfiles envGoodJson "chromium".toList) "Profile 1".toList = true :=
  (chromeProfiles_characterization envGoodJson "chromium".toList
      "Profile 1".toList).2.mpr
    ⟨rfl, rootW, rfl,
      Or.inr ⟨("Profile 1".toList, Json.obj [("name".toList, Json.str "Work".toList)]),
        show _ ∈ [("Profile 1".toList, Json.obj [("name".toList, Json.str "Work".toList)])] from
          List.mem_singleton.mpr rfl,
        rfl, rfl⟩⟩

/-- Environment of C7's failing input: Google Chrome's `Local State` parses
as an (empty) JSON object and the Default profile's `Preferences` file
exists with modification time 100, while the profile directory's
modification time is 50. -/
def envChromeBug : Env :=
  { envEmpty with
    fileExists := fun s =>
      decide (s = "/h/.config/google-chrome/Local State".toList ∨
        s = "/h/.config/google-chrome/Default/Preferences".toList),
    mtime := fun s =>
      if s = "/h/.config/google-chrome/Default/Preferences".toList then 100 else 50,
    jsonAt := fun s =>
      if s = "/h/.config/google-chrome/Local State".toList then some (Json.obj [])
      else none }

/-- The same filesystem layout for Chromium instead of Google Chrome. -/
def envChromiumOk : Env :=
  { envEmpty with
    fileExists := fun s =>
      decide (s = "/h/.config/chromium/Local State".toList ∨
        s = "/h/.config/chromium/Default/Preferences".toList),
    mtime := fun s =>
      if s = "/h/.config/chromium/Default/Preferences".toList then 100 else 50,
    jsonAt := fun s =>
      if s = "/h/.config/chromium/Local State".toList then some (Json.obj [])
      else none }

/-- C7 (code bug): for Google Chrome the profile enumeration passes the
string `"google-chrome"` to `getProfileLastUsed`, whose Preferences branch
matches only the literals `"chrome"` and `"chromium"` — so even though the
Default profile's `Preferences` file exists (mtime 100), Chrome's last-used
timestamp is the directory fallback (mtime 50), contradicting the code's
own comment and the spec; the identical layout under Chromium (where the
passed name `"chromium"` does match) yields the Preferences mtime 100. -/
theorem chromeLastUsed_bug :
    (envChromeBug.fileExists
        "/h/.config/google-chrome/Default/Preferences".toList = true ∧
     envChromeBug.mtime
        "/h/.config/google-chrome/Default/Preferences".toList = 100 ∧
     lookupKV (getChromeProfiles envChromeBug "google-chrome".toList)
        "Default".toList =
       some { name := "Default".toList, path := "Default".toList,
              displayName := "Default".toList, lastUsed := 50,
              isDefault := false }) ∧
    (envChromiumOk.fileExists
        "/h/.config/chromium/Default/Preferences".toList = true ∧
     lookupKV (getChromeProfiles envChromiumOk "chromium".toList)
        "Default".toList =
       some { name := "Default".toList, path := "Default".toList,
              displayName := "Default".toList, lastUsed := 100,
              isDefault := false }) := by
  decide

end BrowserPicker
